import Mathlib

/-!
Shallow embedding of the `EventPhotos` React component
(src/src/components/EventPhotos.tsx) and verification of its
specification.  The component fetches an event and the current
attendee's matched images, filters them to the active event, and offers
single and bulk image downloads.  Collaborators (`getEventById`,
`getAllAttendeeImagesByUser`, `fetch`, `localStorage`) are modelled as
an explicit environment; the observable behaviour of each handler is an
effect trace plus the resulting component state.
-/

namespace EventPhotos

/-- The `Event` interface of the component. -/
structure Event where
  id : String
  name : String
  date : String
deriving Repr, DecidableEq

/-- The `MatchingImage` interface of the component. -/
structure MatchingImage where
  imageId : String
  eventId : String
  eventName : String
  imageUrl : String
  matchedDate : String
deriving Repr, DecidableEq

/-- One record returned by the `getAllAttendeeImagesByUser` collaborator:
`{ eventId, uploadedAt, matchedImages }`. -/
structure AttendeeImageData where
  eventId : String
  uploadedAt : String
  matchedImages : List String
deriving Repr, DecidableEq

/-- JavaScript `str.split('/')` on the character list of the string:
splitting at every `'/'`, keeping empty pieces, and returning `[[]]`
for the empty string (JS `''.split('/') = ['']`). -/
def jsSplitSlash : List Char → List (List Char)
  | [] => [[]]
  | c :: rest =>
    if c = '/' then [] :: jsSplitSlash rest
    else
      match jsSplitSlash rest with
      | [] => [[c]]
      | g :: gs => (c :: g) :: gs

/-- JavaScript `v || d` where `v` is `arr.pop()` (possibly `undefined`)
and both the empty string and `undefined` are falsy. -/
def jsOrDefault (v : Option String) (d : String) : String :=
  match v with
  | some s => if s = "" then d else s
  | none => d

/-- `url.split('/').pop() || ''` — the derived `imageId` of a matched
image URL. -/
def imageIdOfUrl (url : String) : String :=
  jsOrDefault ((jsSplitSlash url.data).map String.mk).getLast? ""

/-- `url.split('/').pop() || 'photo.jpg'` — the filename used by the
single-image download. -/
def filenameOfUrl (url : String) : String :=
  jsOrDefault ((jsSplitSlash url.data).map String.mk).getLast? "photo.jpg"

/-- JavaScript strict equality `s === v` where `s` is a string and `v`
is a string or `undefined`: comparison with `undefined` is `false`. -/
def jsStrEqOpt (s : String) : Option String → Bool
  | some t => s == t
  | none => false

/-- The `eventImages` computation of `fetchEventPhotos`: filter the
attendee records by `data.eventId === eventId` (the route parameter,
possibly `undefined`), then flatten each record's `matchedImages` into
`MatchingImage` entries. -/
def eventImagesOf (eventId? : Option String) (eventName : String)
    (attendeeImageData : List AttendeeImageData) : List MatchingImage :=
  (attendeeImageData.filter (fun data => jsStrEqOpt data.eventId eventId?)).flatMap
    (fun data =>
      data.matchedImages.map (fun url =>
        { imageId := imageIdOfUrl url
          eventId := data.eventId
          eventName := eventName
          imageUrl := url
          matchedDate := data.uploadedAt }))

/-- Observable side effects of the component: state setters, navigation,
collaborator calls, console logging, DOM/download actions, alerts and
the inter-download delay. -/
inductive Effect where
  | setLoading (b : Bool)
  | setEvent (e : Event)
  | setImages (imgs : List MatchingImage)
  | navigate (path : String)
  | callGetEventById (id : String)
  | callGetImages (userEmail : String)
  | consoleError (msg : String)
  | downloadAttempt (url : String)
  | createObjectURL
  | appendChild
  | triggerSave (filename : String) (contentType : String)
  | scheduleCleanup
  | windowOpen (url : String)
  | alertShown (msg : String)
  | delay (ms : Nat)
deriving Repr, DecidableEq

/-- Outcome of `fetch(url, ...)` followed by `response.blob()`:
success (with the optional `content-type` header), an OK response whose
blob materialization rejects, a non-OK HTTP response (with its
`statusText`), or a rejected fetch (network error). -/
inductive FetchResult where
  | success (contentTypeHeader : Option String)
  | blobFailure (contentTypeHeader : Option String) (msg : String)
  | httpError (statusText : String)
  | networkError (msg : String)
deriving Repr, DecidableEq

/-- The ambient environment of the component: the `localStorage`
session token and the asynchronous collaborators, each of which may
throw (`Except.error`). -/
structure Env where
  userEmail : Option String
  eventById : String → Except String (Option Event)
  imagesByUser : String → Except String (List AttendeeImageData)
  fetchUrl : String → FetchResult

/-- Component state touched by `fetchEventPhotos`. -/
structure ViewState where
  event : Option Event
  images : List MatchingImage
  loading : Bool
deriving Repr, DecidableEq

/-- Initial `useState` values: no event, empty image list, loading. -/
def initialState : ViewState :=
  { event := none, images := [], loading := true }

/-- The `try` block of `fetchEventPhotos`: effect trace, state reached,
and the error propagated to the `catch` block, if any. -/
def fetchTry (env : Env) (eventId? : Option String) :
    List Effect × ViewState × Option String :=
  let s0 : ViewState := { initialState with loading := true }
  let effs0 : List Effect := [Effect.setLoading true]
  match env.userEmail with
  | none => (effs0 ++ [Effect.navigate "/GoogleLogin"], s0, none)
  | some userEmail =>
    let effs1 := effs0 ++ [Effect.callGetEventById (eventId?.getD "")]
    match env.eventById (eventId?.getD "") with
    | Except.error msg => (effs1, s0, some msg)
    | Except.ok none =>
      (effs1 ++ [Effect.consoleError "Event not found",
                 Effect.navigate "/attendee-dashboard"], s0, none)
    | Except.ok (some eventDetails) =>
      let s1 := { s0 with event := some eventDetails }
      let effs2 := effs1 ++ [Effect.setEvent eventDetails,
                             Effect.callGetImages userEmail]
      match env.imagesByUser userEmail with
      | Except.error msg => (effs2, s1, some msg)
      | Except.ok attendeeImageData =>
        let eventImages := eventImagesOf eventId? eventDetails.name attendeeImageData
        (effs2 ++ [Effect.setImages eventImages],
         { s1 with images := eventImages }, none)

/-- `fetchEventPhotos` run on mount: the `try` block, then the `catch`
block (log the error), then the `finally` block (`setLoading(false)`). -/
def fetchEventPhotos (env : Env) (eventId? : Option String) :
    List Effect × ViewState :=
  match fetchTry env eventId? with
  | (effs, s, none) =>
    (effs ++ [Effect.setLoading false], { s with loading := false })
  | (effs, s, some msg) =>
    (effs ++ [Effect.consoleError ("Error fetching event photos: " ++ msg),
              Effect.setLoading false],
     { s with loading := false })

/-- The `try` block of `handleDownload`: the effects performed before a
possible throw, and the thrown error, if any. -/
def handleDownloadTry (env : Env) (url : String) : List Effect × Option String :=
  match env.fetchUrl url with
  | FetchResult.networkError msg => ([Effect.downloadAttempt url], some msg)
  | FetchResult.httpError statusText =>
    ([Effect.downloadAttempt url],
     some ("Failed to download image: " ++ statusText))
  | FetchResult.blobFailure _ msg => ([Effect.downloadAttempt url], some msg)
  | FetchResult.success contentTypeHeader =>
    let contentType := contentTypeHeader.getD "image/jpeg"
    ([Effect.downloadAttempt url, Effect.createObjectURL, Effect.appendChild,
      Effect.triggerSave (filenameOfUrl url) contentType,
      Effect.scheduleCleanup], none)

/-- `handleDownload`: the `try` block with its `catch` block (log and
fall back to `window.open(url)`).  The second component is the
rejection of the returned promise, if any. -/
def handleDownload (env : Env) (url : String) : List Effect × Option String :=
  match handleDownloadTry env url with
  | (effs, none) => (effs, none)
  | (effs, some msg) =>
    (effs ++ [Effect.consoleError ("Error downloading image: " ++ msg),
              Effect.windowOpen url], none)

/-- The `for` loop of `handleDownloadAll`: await `handleDownload` for
each image in order (a rejection would propagate to the caller), then
await a 500ms delay. -/
def downloadLoop (env : Env) : List MatchingImage → List Effect × Option String
  | [] => ([], none)
  | img :: rest =>
    match handleDownload env img.imageUrl with
    | (effs, some msg) => (effs, some msg)
    | (effs, none) =>
      let (restEffs, err) := downloadLoop env rest
      (effs ++ [Effect.delay 500] ++ restEffs, err)

/-- The upfront alert text of `handleDownloadAll`. -/
def startAlertMsg : String :=
  "Starting downloads. Please allow multiple downloads in your browser settings."

/-- The aggregate warning text of the `catch` block of
`handleDownloadAll`. -/
def aggregateAlertMsg : String :=
  "Some downloads may have failed. Please try downloading individual photos."

/-- `handleDownloadAll`: the upfront alert and the download loop inside
a `try`, whose `catch` logs and shows the aggregate warning alert. -/
def handleDownloadAll (env : Env) (images : List MatchingImage) : List Effect :=
  match downloadLoop env images with
  | (effs, none) => Effect.alertShown startAlertMsg :: effs
  | (effs, some msg) =>
    Effect.alertShown startAlertMsg :: effs ++
      [Effect.consoleError ("Error downloading all images: " ++ msg),
       Effect.alertShown aggregateAlertMsg]

/-- List of URLs of the single-download attempts (the `fetch` calls) in
a trace, in order. -/
def attemptsOf (trace : List Effect) : List String :=
  trace.filterMap (fun e =>
    match e with
    | Effect.downloadAttempt u => some u
    | _ => none)

/-- Whether an effect is a single-download attempt. -/
def isAttempt : Effect → Bool
  | Effect.downloadAttempt _ => true
  | _ => false

mutual
/-- A trace separates successive download attempts: after each attempt,
a 500ms delay occurs before any further attempt. -/
def delaySeparated : List Effect → Bool
  | [] => true
  | e :: rest => if isAttempt e then delayThen rest else delaySeparated rest

/-- After an attempt: reject a further attempt until a 500ms delay has
been seen. -/
def delayThen : List Effect → Bool
  | [] => true
  | e :: rest =>
    if isAttempt e then false
    else if e = Effect.delay 500 then delaySeparated rest else delayThen rest
end

/-- Modelled from the spec: the trailing path segment of a URL, the
substring after the last occurrence of the separator `'/'` (the whole
string when no `'/'` occurs). -/
def specTrailingAux : List Char → List Char
  | [] => []
  | c :: rest =>
    if '/' ∈ rest then specTrailingAux rest
    else if c = '/' then rest else c :: rest

/-- Modelled from the spec: trailing path segment of a URL string. -/
def specTrailingSegment (url : String) : String :=
  String.mk (specTrailingAux url.data)

/-- Whether a fetch outcome makes the `try` block of `handleDownload`
throw: network error, non-OK response, or blob rejection. -/
def FetchResult.isFailure : FetchResult → Bool
  | FetchResult.success _ => false
  | _ => true

/-- Modelled from the spec: the image list is exactly the entries
flattened from the records whose `eventId` equals the active event
identifier, inheriting the record's upload timestamp and the event's
display name. -/
def specEventImages (activeId : String) (eventName : String)
    (records : List AttendeeImageData) : List MatchingImage :=
  (records.filter (fun d => d.eventId == activeId)).flatMap
    (fun d =>
      d.matchedImages.map (fun url =>
        { imageId := imageIdOfUrl url
          eventId := d.eventId
          eventName := eventName
          imageUrl := url
          matchedDate := d.uploadedAt }))

/-! Concrete data used to exercise the theorems. -/

/-- A concrete event. -/
def evGala : Event := ⟨"ev1", "Spring Gala", "2024-05-01"⟩

/-- An attendee record for the active event. -/
def recGala : AttendeeImageData :=
  ⟨"ev1", "2024-05-01", ["https://x/a.jpg", "https://x/b.jpg"]⟩

/-- An attendee record for a different event. -/
def recOther : AttendeeImageData := ⟨"ev2", "2024-06-01", ["https://y/c.jpg"]⟩

/-- An attendee record whose image URL ends in a slash. -/
def recSlash : AttendeeImageData := ⟨"ev1", "2024-05-01", ["https://x/"]⟩

/-- An attendee record whose event id is the empty string. -/
def recEmptyId : AttendeeImageData := ⟨"", "2024-07-01", ["https://z/q.jpg"]⟩

/-- The matched image derived from the slash-terminated URL. -/
def imgSlash : MatchingImage := ⟨"", "ev1", "Spring Gala", "https://x/", "2024-05-01"⟩

/-- A matched image of the active event. -/
def imgA : MatchingImage :=
  ⟨"a.jpg", "ev1", "Spring Gala", "https://x/a.jpg", "2024-05-01"⟩

/-- Environment: logged-in user, event found, two attendee records. -/
def envMain : Env :=
  ⟨some "user@x", fun _ => Except.ok (some evGala),
   fun _ => Except.ok [recGala, recOther], fun _ => FetchResult.success none⟩

/-- Environment with no stored session token. -/
def envNoUser : Env :=
  ⟨none, fun _ => Except.ok (some evGala), fun _ => Except.ok [recGala],
   fun _ => FetchResult.success none⟩

/-- Environment whose event lookup finds nothing. -/
def envNotFound : Env :=
  ⟨some "user@x", fun _ => Except.ok none, fun _ => Except.ok [recGala],
   fun _ => FetchResult.success none⟩

/-- Environment whose event lookup throws. -/
def envLookupThrow : Env :=
  ⟨some "user@x", fun _ => Except.error "network down",
   fun _ => Except.ok [recGala], fun _ => FetchResult.success none⟩

/-- Environment whose image fetches answer HTTP 404. -/
def envHttp404 : Env :=
  ⟨some "user@x", fun _ => Except.ok (some evGala),
   fun _ => Except.ok [recGala], fun _ => FetchResult.httpError "Not Found"⟩

/-- Environment where an event with the empty id exists and the
attendee has a record with the empty event id. -/
def envEmptyIdEvent : Env :=
  ⟨some "user@x", fun _ => Except.ok (some ⟨"", "Unnamed", "2024-01-01"⟩),
   fun _ => Except.ok [recEmptyId], fun _ => FetchResult.success none⟩

/-! Helper lemmas. -/

/-- The catch block of `handleDownload` absorbs every throw of its try
block: the returned promise never rejects. -/
theorem handleDownload_snd (env : Env) (url : String) :
    (handleDownload env url).2 = none := by
  unfold handleDownload
  cases h : handleDownloadTry env url with
  | mk effs err => cases err <;> simp

/-- The download loop never propagates an error. -/
theorem downloadLoop_snd (env : Env) (images : List MatchingImage) :
    (downloadLoop env images).2 = none := by
  induction images with
  | nil => rfl
  | cons img rest ih =>
    cases h : handleDownload env img.imageUrl with
    | mk effs err =>
      cases err with
      | some msg =>
        have h1 := handleDownload_snd env img.imageUrl
        rw [h] at h1
        exact absurd h1 (by simp)
      | none =>
        cases hr : downloadLoop env rest with
        | mk restEffs err2 =>
          rw [hr] at ih
          unfold downloadLoop
          rw [h, hr]
          exact ih

/-- Each `handleDownload` invocation performs exactly one fetch, on its
own URL. -/
theorem attemptsOf_handleDownload (env : Env) (url : String) :
    attemptsOf (handleDownload env url).1 = [url] := by
  cases h : env.fetchUrl url <;>
    simp [handleDownload, handleDownloadTry, attemptsOf, h]

/-- `attemptsOf` distributes over concatenation. -/
theorem attemptsOf_append (a b : List Effect) :
    attemptsOf (a ++ b) = attemptsOf a ++ attemptsOf b :=
  List.filterMap_append a b _

/-- `handleDownload` shows no alert dialog. -/
theorem alert_not_mem_handleDownload (env : Env) (url : String) (m : String) :
    Effect.alertShown m ∉ (handleDownload env url).1 := by
  cases h : env.fetchUrl url <;>
    simp [handleDownload, handleDownloadTry, h]

/-- A `handleDownload` trace followed by the 500ms delay keeps a trace
delay-separated. -/
theorem delaySeparated_handleDownload (env : Env) (url : String) (t : List Effect) :
    delaySeparated ((handleDownload env url).1 ++ Effect.delay 500 :: t) =
      delaySeparated t := by
  cases h : env.fetchUrl url <;>
    simp [handleDownload, handleDownloadTry, h, delaySeparated, delayThen, isAttempt]

/-- The download loop fetches each image URL once, in list order. -/
theorem attemptsOf_downloadLoop (env : Env) (images : List MatchingImage) :
    attemptsOf (downloadLoop env images).1 = images.map (fun i => i.imageUrl) := by
  induction images with
  | nil => rfl
  | cons img rest ih =>
    cases h : handleDownload env img.imageUrl with
    | mk effs err =>
      cases err with
      | some msg =>
        have h1 := handleDownload_snd env img.imageUrl
        rw [h] at h1
        exact absurd h1 (by simp)
      | none =>
        cases hr : downloadLoop env rest with
        | mk restEffs err2 =>
          rw [hr] at ih
          have ha := attemptsOf_handleDownload env img.imageUrl
          rw [h] at ha
          have ha' : attemptsOf effs = [img.imageUrl] := ha
          have ih' : attemptsOf restEffs = rest.map (fun i => i.imageUrl) := ih
          unfold downloadLoop
          rw [h, hr]
          show attemptsOf (effs ++ [Effect.delay 500] ++ restEffs) =
            img.imageUrl :: rest.map (fun i => i.imageUrl)
          rw [attemptsOf_append, attemptsOf_append, ha', ih']
          rfl

/-- The download loop separates successive fetches by a 500ms delay. -/
theorem delaySeparated_downloadLoop (env : Env) (images : List MatchingImage) :
    delaySeparated (downloadLoop env images).1 = true := by
  induction images with
  | nil => rfl
  | cons img rest ih =>
    cases h : handleDownload env img.imageUrl with
    | mk effs err =>
      cases err with
      | some msg =>
        have h1 := handleDownload_snd env img.imageUrl
        rw [h] at h1
        exact absurd h1 (by simp)
      | none =>
        cases hr : downloadLoop env rest with
        | mk restEffs err2 =>
          rw [hr] at ih
          have ih' : delaySeparated restEffs = true := ih
          have hd := delaySeparated_handleDownload env img.imageUrl restEffs
          rw [h] at hd
          have hd' : delaySeparated (effs ++ Effect.delay 500 :: restEffs) =
            delaySeparated restEffs := hd
          unfold downloadLoop
          rw [h, hr]
          show delaySeparated (effs ++ [Effect.delay 500] ++ restEffs) = true
          rw [List.append_assoc]
          show delaySeparated (effs ++ (Effect.delay 500 :: restEffs)) = true
          rw [hd', ih']

/-- The download loop shows no alert dialog. -/
theorem alert_not_mem_downloadLoop (env : Env) (images : List MatchingImage) (m : String) :
    Effect.alertShown m ∉ (downloadLoop env images).1 := by
  induction images with
  | nil => simp [downloadLoop]
  | cons img rest ih =>
    cases h : handleDownload env img.imageUrl with
    | mk effs err =>
      cases err with
      | some msg =>
        have h1 := handleDownload_snd env img.imageUrl
        rw [h] at h1
        exact absurd h1 (by simp)
      | none =>
        cases hr : downloadLoop env rest with
        | mk restEffs err2 =>
          rw [hr] at ih
          have ih' : Effect.alertShown m ∉ restEffs := ih
          have hm := alert_not_mem_handleDownload env img.imageUrl m
          rw [h] at hm
          have hm' : Effect.alertShown m ∉ effs := hm
          unfold downloadLoop
          rw [h, hr]
          show Effect.alertShown m ∉ effs ++ [Effect.delay 500] ++ restEffs
          intro hc
          rcases List.mem_append.mp hc with hc1 | hc2
          · rcases List.mem_append.mp hc1 with hc3 | hc4
            · exact hm' hc3
            · simp at hc4
          · exact ih' hc2

/-- `jsSplitSlash` never returns an empty list (JS `split` always
returns at least one piece). -/
theorem jsSplitSlash_ne_nil (cs : List Char) : jsSplitSlash cs ≠ [] := by
  induction cs with
  | nil => simp [jsSplitSlash]
  | cons c rest ih =>
    unfold jsSplitSlash
    by_cases hc : c = '/'
    · simp [hc]
    · simp only [hc, if_false]
      cases h : jsSplitSlash rest <;> simp

/-- On a slash-free string, JS `split('/')` returns the single whole
piece. -/
theorem jsSplitSlash_no_slash (cs : List Char) (h : '/' ∉ cs) :
    jsSplitSlash cs = [cs] := by
  induction cs with
  | nil => rfl
  | cons c rest ih =>
    have hc : ¬ c = '/' := fun hc => h (by rw [hc]; exact List.mem_cons_self _ _)
    have hrest : '/' ∉ rest := fun hm => h (List.mem_cons_of_mem _ hm)
    unfold jsSplitSlash
    rw [if_neg hc, ih hrest]

/-- On a string containing a slash, JS `split('/')` returns at least
two pieces. -/
theorem jsSplitSlash_two_le (cs : List Char) (h : '/' ∈ cs) :
    2 ≤ (jsSplitSlash cs).length := by
  induction cs with
  | nil => simp at h
  | cons c rest ih =>
    unfold jsSplitSlash
    by_cases hc : c = '/'
    · rw [if_pos hc]
      have h1 := jsSplitSlash_ne_nil rest
      cases hr : jsSplitSlash rest with
      | nil => exact absurd hr h1
      | cons g gs => simp
    · have hrest : '/' ∈ rest := by
        rcases List.mem_cons.mp h with h1 | h1
        · exact absurd h1.symm hc
        · exact h1
      have h2 := ih hrest
      rw [if_neg hc]
      cases hr : jsSplitSlash rest with
      | nil => exact absurd hr (jsSplitSlash_ne_nil rest)
      | cons g gs =>
        rw [hr] at h2
        simpa using h2

/-- On a slash-free string the trailing segment is the whole string. -/
theorem specTrailingAux_no_slash (cs : List Char) (h : '/' ∉ cs) :
    specTrailingAux cs = cs := by
  cases cs with
  | nil => rfl
  | cons c rest =>
    have hc : ¬ c = '/' := fun hc => h (by rw [hc]; exact List.mem_cons_self _ _)
    have hrest : '/' ∉ rest := fun hm => h (List.mem_cons_of_mem _ hm)
    unfold specTrailingAux
    rw [if_neg hrest, if_neg hc]

/-- The last piece of JS `split('/')` is the substring after the last
slash. -/
theorem getLast?_jsSplitSlash (cs : List Char) :
    (jsSplitSlash cs).getLast? = some (specTrailingAux cs) := by
  induction cs with
  | nil => rfl
  | cons c rest ih =>
    by_cases hc : c = '/'
    · subst hc
      unfold jsSplitSlash
      rw [if_pos rfl]
      cases hr : jsSplitSlash rest with
      | nil => exact absurd hr (jsSplitSlash_ne_nil rest)
      | cons g gs =>
        rw [List.getLast?_cons_cons]
        rw [hr] at ih
        unfold specTrailingAux
        by_cases hs : '/' ∈ rest
        · rw [if_pos hs]
          exact ih
        · rw [if_neg hs, if_pos rfl]
          rw [specTrailingAux_no_slash rest hs] at ih
          exact ih
    · unfold jsSplitSlash
      rw [if_neg hc]
      by_cases hs : '/' ∈ rest
      · have h2 := jsSplitSlash_two_le rest hs
        cases hr : jsSplitSlash rest with
        | nil => exact absurd hr (jsSplitSlash_ne_nil rest)
        | cons g gs =>
          cases gs with
          | nil =>
            rw [hr] at h2
            simp at h2
          | cons g2 gs2 =>
            rw [hr] at ih
            rw [List.getLast?_cons_cons] at ih ⊢
            rw [ih]
            have hstep : specTrailingAux (c :: rest) = specTrailingAux rest := by
              conv_lhs => unfold specTrailingAux
              rw [if_pos hs]
            rw [hstep]
      · rw [jsSplitSlash_no_slash rest hs]
        unfold specTrailingAux
        rw [if_neg hs, if_neg hc]
        rfl

/-- The derived image id is the trailing path segment of the URL. -/
theorem imageIdOfUrl_eq_spec (url : String) :
    imageIdOfUrl url = specTrailingSegment url := by
  unfold imageIdOfUrl specTrailingSegment
  rw [List.getLast?_map, getLast?_jsSplitSlash]
  show (if String.mk (specTrailingAux url.data) = "" then ""
    else String.mk (specTrailingAux url.data)) = String.mk (specTrailingAux url.data)
  split
  · rename_i hemp
    exact hemp.symm
  · rfl

/-- The trailing segment of a slash-terminated string is empty. -/
theorem specTrailingAux_append_slash (cs : List Char) :
    specTrailingAux (cs ++ ['/']) = [] := by
  induction cs with
  | nil => rfl
  | cons c rest ih =>
    have hmem : '/' ∈ rest ++ ['/'] := List.mem_append.mpr (Or.inr (by simp))
    show specTrailingAux (c :: (rest ++ ['/'])) = []
    unfold specTrailingAux
    rw [if_pos hmem]
    exact ih

/-- Every produced entry inherits its record's event id (which the
filter matched against the route id), derives its id from its URL, and
carries the event display name. -/
theorem mem_eventImagesOf (eventId? : Option String) (n : String)
    (rs : List AttendeeImageData) (img : MatchingImage)
    (h : img ∈ eventImagesOf eventId? n rs) :
    jsStrEqOpt img.eventId eventId? = true ∧
    img.imageId = imageIdOfUrl img.imageUrl ∧ img.eventName = n := by
  unfold eventImagesOf at h
  rw [List.mem_flatMap] at h
  obtain ⟨d, hd, himg⟩ := h
  rw [List.mem_filter] at hd
  rw [List.mem_map] at himg
  obtain ⟨url, _, himg⟩ := himg
  subst himg
  exact ⟨hd.2, rfl, rfl⟩

/-- The URLs of the produced entries are exactly the flattened
`matchedImages` of the records passing the filter, in order. -/
theorem map_imageUrl_eventImagesOf (eventId? : Option String) (n : String)
    (rs : List AttendeeImageData) :
    (eventImagesOf eventId? n rs).map (fun i => i.imageUrl) =
      (rs.filter (fun d => jsStrEqOpt d.eventId eventId?)).flatMap
        (fun d => d.matchedImages) := by
  unfold eventImagesOf
  rw [List.map_flatMap]
  congr 1
  funext d
  rw [List.map_map]
  exact List.map_id _

/-- With a defined route id the filter agrees with the specification
filter (equality with the active event identifier). -/
theorem eventImagesOf_some_eq_spec (e n : String) (rs : List AttendeeImageData) :
    eventImagesOf (some e) n rs = specEventImages e n rs := by
  unfold eventImagesOf specEventImages jsStrEqOpt
  rfl

/-- With an undefined route id no record passes the filter. -/
theorem eventImagesOf_none (n : String) (rs : List AttendeeImageData) :
    eventImagesOf none n rs = [] := by
  unfold eventImagesOf
  have : rs.filter (fun d => jsStrEqOpt d.eventId none) = [] := by
    induction rs with
    | nil => rfl
    | cons d rest ih => simp [List.filter, jsStrEqOpt, ih]
  rw [this]
  rfl

/-! Claim theorems. -/

/-- C5: when the ambient userEmail session token is absent, activation
redirects to the authentication view and performs no collaborator
calls: neither the event lookup nor the attendee image listing is
invoked. -/
theorem no_user_redirect_C5 (env : Env) (eventId? : Option String)
    (hu : env.userEmail = none) :
    (fetchEventPhotos env eventId?).1 =
      [Effect.setLoading true, Effect.navigate "/GoogleLogin",
       Effect.setLoading false] ∧
    (∀ i, Effect.callGetEventById i ∉ (fetchEventPhotos env eventId?).1) ∧
    (∀ em, Effect.callGetImages em ∉ (fetchEventPhotos env eventId?).1) := by
  have htr : fetchEventPhotos env eventId? =
      ([Effect.setLoading true, Effect.navigate "/GoogleLogin",
        Effect.setLoading false],
       { event := none, images := [], loading := false }) := by
    simp [fetchEventPhotos, fetchTry, hu, initialState]
  refine ⟨by rw [htr], ?_, ?_⟩
  · intro i
    rw [htr]
    simp
  · intro em
    rw [htr]
    simp

/-- Closed witness for the C5 theorem at a concrete environment. -/
theorem no_user_redirect_C5_witness :
    (fetchEventPhotos envNoUser (some "ev1")).1 =
      [Effect.setLoading true, Effect.navigate "/GoogleLogin",
       Effect.setLoading false] ∧
    Effect.callGetEventById "ev1" ∉ (fetchEventPhotos envNoUser (some "ev1")).1 ∧
    Effect.callGetImages "user@x" ∉ (fetchEventPhotos envNoUser (some "ev1")).1 := by
  have h := no_user_redirect_C5 envNoUser (some "ev1") rfl
  exact ⟨h.1, h.2.1 "ev1", h.2.2 "user@x"⟩

/-- C4: when the event lookup returns no event, activation logs the
condition, redirects to the dashboard view, never calls the attendee
image collaborator, and the image list stays empty. -/
theorem event_not_found_C4 (env : Env) (eventId? : Option String) (u : String)
    (hu : env.userEmail = some u)
    (hev : env.eventById (eventId?.getD "") = Except.ok none) :
    Effect.consoleError "Event not found" ∈ (fetchEventPhotos env eventId?).1 ∧
    Effect.navigate "/attendee-dashboard" ∈ (fetchEventPhotos env eventId?).1 ∧
    (∀ em, Effect.callGetImages em ∉ (fetchEventPhotos env eventId?).1) ∧
    (fetchEventPhotos env eventId?).2.images = [] := by
  have htr : fetchEventPhotos env eventId? =
      ([Effect.setLoading true, Effect.callGetEventById (eventId?.getD ""),
        Effect.consoleError "Event not found",
        Effect.navigate "/attendee-dashboard", Effect.setLoading false],
       { event := none, images := [], loading := false }) := by
    simp [fetchEventPhotos, fetchTry, hu, hev, initialState]
  refine ⟨by rw [htr]; simp, by rw [htr]; simp, ?_, by rw [htr]⟩
  intro em
  rw [htr]
  simp

/-- Closed witness for the C4 theorem at a concrete environment. -/
theorem event_not_found_C4_witness :
    Effect.consoleError "Event not found" ∈ (fetchEventPhotos envNotFound (some "ev9")).1 ∧
    Effect.navigate "/attendee-dashboard" ∈ (fetchEventPhotos envNotFound (some "ev9")).1 ∧
    Effect.callGetImages "user@x" ∉ (fetchEventPhotos envNotFound (some "ev9")).1 ∧
    (fetchEventPhotos envNotFound (some "ev9")).2.images = [] := by
  have h := event_not_found_C4 envNotFound (some "ev9") "user@x" rfl rfl
  exact ⟨h.1, h.2.1, h.2.2.1 "user@x", h.2.2.2⟩

/-- C8: when a collaborator fetch throws, the error is logged, loading
stops, the image list is left empty, and no alert dialog is shown. -/
theorem fetch_failure_C8 (env : Env) (eventId? : Option String) (u msg : String)
    (hu : env.userEmail = some u)
    (hfail : env.eventById (eventId?.getD "") = Except.error msg ∨
      (∃ ev, env.eventById (eventId?.getD "") = Except.ok (some ev) ∧
        env.imagesByUser u = Except.error msg)) :
    (fetchEventPhotos env eventId?).2.loading = false ∧
    (fetchEventPhotos env eventId?).2.images = [] ∧
    Effect.consoleError ("Error fetching event photos: " ++ msg) ∈
      (fetchEventPhotos env eventId?).1 ∧
    (∀ m, Effect.alertShown m ∉ (fetchEventPhotos env eventId?).1) := by
  rcases hfail with hev | ⟨ev, hev, himg⟩
  · have htr : fetchEventPhotos env eventId? =
        ([Effect.setLoading true, Effect.callGetEventById (eventId?.getD ""),
          Effect.consoleError ("Error fetching event photos: " ++ msg),
          Effect.setLoading false],
         { event := none, images := [], loading := false }) := by
      simp [fetchEventPhotos, fetchTry, hu, hev, initialState]
    refine ⟨by rw [htr], by rw [htr], by rw [htr]; simp, ?_⟩
    intro m
    rw [htr]
    simp
  · have htr : fetchEventPhotos env eventId? =
        ([Effect.setLoading true, Effect.callGetEventById (eventId?.getD ""),
          Effect.setEvent ev, Effect.callGetImages u,
          Effect.consoleError ("Error fetching event photos: " ++ msg),
          Effect.setLoading false],
         { event := some ev, images := [], loading := false }) := by
      simp [fetchEventPhotos, fetchTry, hu, hev, himg, initialState]
    refine ⟨by rw [htr], by rw [htr], by rw [htr]; simp, ?_⟩
    intro m
    rw [htr]
    simp

/-- Closed witness for the C8 theorem at a concrete environment. -/
theorem fetch_failure_C8_witness :
    (fetchEventPhotos envLookupThrow (some "ev1")).2.loading = false ∧
    (fetchEventPhotos envLookupThrow (some "ev1")).2.images = [] ∧
    Effect.consoleError ("Error fetching event photos: " ++ "network down") ∈
      (fetchEventPhotos envLookupThrow (some "ev1")).1 ∧
    Effect.alertShown aggregateAlertMsg ∉ (fetchEventPhotos envLookupThrow (some "ev1")).1 := by
  have h := fetch_failure_C8 envLookupThrow (some "ev1") "user@x" "network down"
    rfl (Or.inl rfl)
  exact ⟨h.1, h.2.1, h.2.2.1, h.2.2.2 aggregateAlertMsg⟩

/-- C10: with an undefined route event id the lookup is still issued,
with the empty string, while the record filter compares against the
undefined id, so the image list is empty even when an event with the
empty id exists and the attendee has records with the empty event
id. -/
theorem undefined_route_C10 (env : Env) (u : String) (ev : Event)
    (records : List AttendeeImageData)
    (hu : env.userEmail = some u)
    (hev : env.eventById "" = Except.ok (some ev))
    (hrec : env.imagesByUser u = Except.ok records) :
    Effect.callGetEventById "" ∈ (fetchEventPhotos env none).1 ∧
    (fetchEventPhotos env none).2.images = [] := by
  have htr : fetchEventPhotos env none =
      ([Effect.setLoading true, Effect.callGetEventById "",
        Effect.setEvent ev, Effect.callGetImages u,
        Effect.setImages (eventImagesOf none ev.name records),
        Effect.setLoading false],
       { event := some ev, images := eventImagesOf none ev.name records,
         loading := false }) := by
    simp [fetchEventPhotos, fetchTry, hu, hev, hrec, initialState]
  constructor
  · rw [htr]
    simp
  · rw [htr]
    exact eventImagesOf_none ev.name records

/-- Closed witness for the C10 theorem at a concrete environment in
which an event with the empty id exists and the attendee holds a
record with the empty event id. -/
theorem undefined_route_C10_witness :
    Effect.callGetEventById "" ∈ (fetchEventPhotos envEmptyIdEvent none).1 ∧
    (fetchEventPhotos envEmptyIdEvent none).2.images = [] := by
  have h := undefined_route_C10 envEmptyIdEvent "user@x" ⟨"", "Unnamed", "2024-01-01"⟩
    [recEmptyId] rfl rfl rfl
  exact h

/-- C1: the view state image list is exactly the entries flattened from
the records whose eventId equals the active event identifier; every
entry carries that identifier; records with any other eventId
contribute no entries (their URLs are absent from the flattened URL
list). -/
theorem view_images_filter_C1 (env : Env) (e u : String) (ev : Event)
    (records : List AttendeeImageData)
    (hu : env.userEmail = some u)
    (hev : env.eventById e = Except.ok (some ev))
    (hrec : env.imagesByUser u = Except.ok records) :
    (fetchEventPhotos env (some e)).2.images = specEventImages e ev.name records ∧
    (∀ img ∈ (fetchEventPhotos env (some e)).2.images, img.eventId = e) ∧
    (fetchEventPhotos env (some e)).2.images.map (fun i => i.imageUrl) =
      (records.filter (fun d => d.eventId == e)).flatMap
        (fun d => d.matchedImages) := by
  have himgs : (fetchEventPhotos env (some e)).2.images =
      eventImagesOf (some e) ev.name records := by
    simp [fetchEventPhotos, fetchTry, hu, hev, hrec, initialState]
  refine ⟨?_, ?_, ?_⟩
  · rw [himgs]
    exact eventImagesOf_some_eq_spec e ev.name records
  · intro img hm
    rw [himgs] at hm
    have h1 := (mem_eventImagesOf (some e) ev.name records img hm).1
    exact beq_iff_eq.mp h1
  · rw [himgs, map_imageUrl_eventImagesOf]
    rfl

/-- Closed witness for the C1 theorem at a concrete environment with
one matching and one non-matching record. -/
theorem view_images_filter_C1_witness :
    (fetchEventPhotos envMain (some "ev1")).2.images =
      specEventImages "ev1" (Event.name evGala) [recGala, recOther] ∧
    (fetchEventPhotos envMain (some "ev1")).2.images.map (fun i => i.imageUrl) =
      ([recGala, recOther].filter (fun d => d.eventId == "ev1")).flatMap
        (fun d => d.matchedImages) := by
  have h := view_images_filter_C1 envMain "ev1" "user@x" evGala
    [recGala, recOther] rfl rfl rfl
  exact ⟨h.1, h.2.2⟩

/-- C3: when the fetch of a URL fails (network error, non-OK HTTP
status, or blob rejection), `handleDownload` opens the raw URL in a
new browsing context and its returned promise does not reject. -/
theorem download_fallback_C3 (env : Env) (url : String)
    (h : (env.fetchUrl url).isFailure = true) :
    Effect.windowOpen url ∈ (handleDownload env url).1 ∧
    (handleDownload env url).2 = none := by
  refine ⟨?_, handleDownload_snd env url⟩
  cases hf : env.fetchUrl url with
  | success hdr =>
    rw [hf] at h
    exact absurd h (by simp [FetchResult.isFailure])
  | httpError st => simp [handleDownload, handleDownloadTry, hf]
  | networkError m => simp [handleDownload, handleDownloadTry, hf]
  | blobFailure hdr m => simp [handleDownload, handleDownloadTry, hf]

/-- Closed witness for the C3 theorem at a URL answered with HTTP 404. -/
theorem download_fallback_C3_witness :
    Effect.windowOpen "https://x/a.jpg" ∈
      (handleDownload envHttp404 "https://x/a.jpg").1 ∧
    (handleDownload envHttp404 "https://x/a.jpg").2 = none :=
  download_fallback_C3 envHttp404 "https://x/a.jpg" rfl

/-- C6: every produced image derives its id as the trailing path
segment of its URL (the substring after the last slash), and a URL
whose character sequence ends in a slash yields the empty id. -/
theorem trailing_segment_C6 (eventId? : Option String) (n : String)
    (rs : List AttendeeImageData) (img : MatchingImage)
    (h : img ∈ eventImagesOf eventId? n rs) :
    img.imageId = specTrailingSegment img.imageUrl ∧
    ∀ cs : List Char, img.imageUrl = String.mk (cs ++ ['/']) → img.imageId = "" := by
  have h1 := (mem_eventImagesOf eventId? n rs img h).2.1
  constructor
  · rw [h1, imageIdOfUrl_eq_spec]
  · intro cs hcs
    rw [h1, imageIdOfUrl_eq_spec, hcs]
    show String.mk (specTrailingAux (cs ++ ['/'])) = ""
    rw [specTrailingAux_append_slash]

/-- Closed witness for the C6 theorem: a record whose only URL ends in
a slash produces the empty image id. -/
theorem trailing_segment_C6_witness :
    imgSlash.imageId = specTrailingSegment imgSlash.imageUrl ∧
    imgSlash.imageId = "" := by
  have hmem : imgSlash ∈ eventImagesOf (some "ev1") "Spring Gala" [recSlash] := by
    simp [eventImagesOf, recSlash, imgSlash, jsStrEqOpt, imageIdOfUrl,
      jsSplitSlash, jsOrDefault]
  have h := trailing_segment_C6 (some "ev1") "Spring Gala" [recSlash] imgSlash hmem
  exact ⟨h.1, h.2 "https://x".data rfl⟩

/-- C7: bulk download issues exactly one fetch per image, in list
order, and every pair of successive fetches is separated by a 500ms
delay. -/
theorem bulk_order_delay_C7 :
    ∀ (env : Env) (images : List MatchingImage),
      attemptsOf (handleDownloadAll env images) = images.map (fun i => i.imageUrl) ∧
      delaySeparated (handleDownloadAll env images) = true := by
  intro env images
  cases hr : downloadLoop env images with
  | mk effs err =>
    cases err with
    | some msg =>
      have h1 := downloadLoop_snd env images
      rw [hr] at h1
      exact absurd h1 (by simp)
    | none =>
      have ha := attemptsOf_downloadLoop env images
      rw [hr] at ha
      have ha' : attemptsOf effs = images.map (fun i => i.imageUrl) := ha
      have hd := delaySeparated_downloadLoop env images
      rw [hr] at hd
      have hd' : delaySeparated effs = true := hd
      unfold handleDownloadAll
      rw [hr]
      constructor
      · show attemptsOf (Effect.alertShown startAlertMsg :: effs) =
          images.map (fun i => i.imageUrl)
        rw [show attemptsOf (Effect.alertShown startAlertMsg :: effs) =
          attemptsOf effs from rfl]
        exact ha'
      · show delaySeparated (Effect.alertShown startAlertMsg :: effs) = true
        unfold delaySeparated
        rw [if_neg (by simp [isAttempt])]
        exact hd'

/-- C9: the promise returned by `handleDownload` never rejects, the
bulk loop therefore never propagates an error, and the bulk trace has
one fetch per image. -/
theorem download_never_rejects_C9 :
    ∀ (env : Env) (url : String) (images : List MatchingImage),
      (handleDownload env url).2 = none ∧
      (downloadLoop env images).2 = none ∧
      (attemptsOf (handleDownloadAll env images)).length = images.length := by
  intro env url images
  refine ⟨handleDownload_snd env url, downloadLoop_snd env images, ?_⟩
  cases hr : downloadLoop env images with
  | mk effs err =>
    cases err with
    | some msg =>
      have h1 := downloadLoop_snd env images
      rw [hr] at h1
      exact absurd h1 (by simp)
    | none =>
      have ha := attemptsOf_downloadLoop env images
      rw [hr] at ha
      have ha' : attemptsOf effs = images.map (fun i => i.imageUrl) := ha
      unfold handleDownloadAll
      rw [hr]
      show (attemptsOf (Effect.alertShown startAlertMsg :: effs)).length = images.length
      rw [show attemptsOf (Effect.alertShown startAlertMsg :: effs) =
        attemptsOf effs from rfl]
      rw [ha']
      exact List.length_map images _

/-- C2 counterexample: with a single image whose fetch answers HTTP
404, the item download fails (the fallback fires) and the loop
completes, yet no aggregate warning alert appears in the trace — the
claim's "exactly one aggregate warning alert" is false here. -/
theorem bulk_aggregate_alert_counterexample_C2 :
    Effect.windowOpen "https://x/a.jpg" ∈ handleDownloadAll envHttp404 [imgA] ∧
    (attemptsOf (handleDownloadAll envHttp404 [imgA])).length = 1 ∧
    (handleDownloadAll envHttp404 [imgA]).count
      (Effect.alertShown aggregateAlertMsg) = 0 := by
  refine ⟨?_, rfl, rfl⟩
  simp [handleDownloadAll, downloadLoop, handleDownload, handleDownloadTry,
    envHttp404, imgA]

/-- C2 amended: on an item failure the loop still runs every remaining
download (one fetch per image, in order), but no aggregate warning
alert is ever shown — the aggregate-warning catch is unreachable
because the single download absorbs its own failures. -/
theorem bulk_continue_no_aggregate_C2 :
    ∀ (env : Env) (images : List MatchingImage),
      attemptsOf (handleDownloadAll env images) = images.map (fun i => i.imageUrl) ∧
      Effect.alertShown aggregateAlertMsg ∉ handleDownloadAll env images := by
  intro env images
  cases hr : downloadLoop env images with
  | mk effs err =>
    cases err with
    | some msg =>
      have h1 := downloadLoop_snd env images
      rw [hr] at h1
      exact absurd h1 (by simp)
    | none =>
      have ha := attemptsOf_downloadLoop env images
      rw [hr] at ha
      have ha' : attemptsOf effs = images.map (fun i => i.imageUrl) := ha
      have hm := alert_not_mem_downloadLoop env images aggregateAlertMsg
      rw [hr] at hm
      have hm' : Effect.alertShown aggregateAlertMsg ∉ effs := hm
      unfold handleDownloadAll
      rw [hr]
      constructor
      · show attemptsOf (Effect.alertShown startAlertMsg :: effs) =
          images.map (fun i => i.imageUrl)
        rw [show attemptsOf (Effect.alertShown startAlertMsg :: effs) =
          attemptsOf effs from rfl]
        exact ha'
      · show Effect.alertShown aggregateAlertMsg ∉
          Effect.alertShown startAlertMsg :: effs
        intro hc
        rcases List.mem_cons.mp hc with h1 | h2
        · have : aggregateAlertMsg = startAlertMsg := by
            injection h1
          exact absurd this (by decide)
        · exact hm' h2

end EventPhotos
